import Mathlib

/-
Verification development for the sus-meter suspicion-scoring engine
(`ProfileAnalyzer` in src/utils/messaging.ts) and its cache layer
(`CacheManager` in src/utils/cache-manager.ts).

Modelling conventions:
- JavaScript numbers are modelled as exact rationals (ℚ); the scoring
  arithmetic only ever divides, multiplies and compares small decimal
  constants, so the rational model tracks the source computation.
- Optional fields (TypeScript `x?:`) are modelled as `Option`; the source
  reads them through `x || 0` (modelled as `Option.getD 0`) or through
  explicit `=== false` checks, which are modelled verbatim.
- `ProfileAnalyzer` keeps a mutable static `settings` object; it is
  modelled by explicit state passing: functions take an `AnalyzerState`
  and return the updated one.  `analyzeProfile` mutates its input profile
  object and returns that same object, so the profile component of its
  result models both the return value and the post-call state of the
  caller's record.
- The cache is a JavaScript object keyed by strings; it is modelled as an
  association list in insertion order (assignment to an existing key keeps
  its position, a fresh key is appended, `delete` removes the entry), with
  timestamps as integer milliseconds (ISO strings in the source round-trip
  through that representation).
- All definitions are total; no operation in the modelled source can throw
  for any value of the modelled input types.
-/

namespace SusMeter

/-- Suspicion levels, in the fixed order used by `shouldAlert`
(none < low < medium < high < critical). -/
inductive SuspicionLevel where
  | none
  | low
  | medium
  | high
  | critical
deriving DecidableEq

/-- Per-time-control ratings (`ChessProfile.ratings`), every field optional. -/
structure Ratings where
  bullet : Option ℚ
  blitz : Option ℚ
  rapid : Option ℚ
  classical : Option ℚ
  puzzle : Option ℚ
deriving DecidableEq

/-- Optional peak ratings (`ChessProfile.peakRatings`). -/
structure PeakRatings where
  bullet : Option ℚ
  blitz : Option ℚ
  rapid : Option ℚ
  classical : Option ℚ
deriving DecidableEq

/-- Game statistics (`ChessProfile.gameStats`). -/
structure GameStats where
  total : ℚ
  rated : Option ℚ
  unrated : Option ℚ
  wins : ℚ
  losses : ℚ
  draws : ℚ
  winRate : ℚ
deriving DecidableEq

/-- Recent activity (`ChessProfile.recentActivity`), itself optional in a
profile; the two rating-change fields are optional inside it. -/
structure RecentActivity where
  gamesLast7Days : ℚ
  gamesLast30Days : ℚ
  ratingChange7Days : Option ℚ
  ratingChange30Days : Option ℚ
deriving DecidableEq

/-- Account status flags (`ChessProfile.accountStatus`). -/
structure AccountStatus where
  isOnline : Bool
  isStreaming : Option Bool
  isVerified : Option Bool
  isClosed : Option Bool
  isViolator : Option Bool
  isFairPlay : Option Bool
deriving DecidableEq

/-- The profile record (`ChessProfile` in src/types/index.ts). -/
structure ChessProfile where
  username : String
  platform : String
  accountAge : ℚ
  createdAt : String
  ratings : Ratings
  peakRatings : Option PeakRatings
  gameStats : GameStats
  recentActivity : Option RecentActivity
  accountStatus : AccountStatus
  suspicionScore : ℚ
  suspicionLevel : SuspicionLevel
  suspicionReasons : List String
  lastUpdated : String
deriving DecidableEq

/-- The `thresholds` part of `ExtensionSettings`. -/
structure Thresholds where
  criticalAccountDays : ℚ
  highSuspicionAccountDays : ℚ
  suspiciousAccountDays : ℚ
  highRatingThreshold : ℚ
  rapidRatingGainDays : ℚ
  rapidRatingGainAmount : ℚ
  minGamesRequired : ℚ
  suspiciousWinRate : ℚ
  suspicionAlertLevel : SuspicionLevel
deriving DecidableEq

/-- `DEFAULT_SETTINGS.thresholds` from src/types/index.ts. -/
def defaultThresholds : Thresholds :=
  ⟨14, 30, 365, 2000, 30, 300, 50, 75, SuspicionLevel.high⟩

/-- Result of one sub-score calculation: `{ score: number; reason?: string }`. -/
structure SubScore where
  score : ℚ
  reason : Option String
deriving DecidableEq

/-- `Math.max(ratings.bullet || 0, ratings.blitz || 0, ratings.rapid || 0,
ratings.classical || 0)`, as computed at the top of the age and
rating-vs-games sub-scores. -/
def highestRating (r : Ratings) : ℚ :=
  max (max (max (r.bullet.getD 0) (r.blitz.getD 0)) (r.rapid.getD 0)) (r.classical.getD 0)

/-- `ProfileAnalyzer.calculateAccountAgeScore` (src/utils/messaging.ts).
The three tiers compare `accountAge` against the configured thresholds;
the local variable the source calls `ageRatio` is named `ageFrac` here. -/
def calculateAccountAgeScore (t : Thresholds) (p : ChessProfile) : SubScore :=
  let accountAge := p.accountAge
  let criticalThreshold := t.criticalAccountDays
  let highThreshold := t.highSuspicionAccountDays
  let suspiciousThreshold := t.suspiciousAccountDays
  let hr := highestRating p.ratings
  if accountAge < criticalThreshold then
    let ageFrac := accountAge / criticalThreshold
    let baseScore := 30 * (1 - ageFrac)
    if hr > t.highRatingThreshold then
      ⟨baseScore + 10,
        some ("Very new account (" ++ toString accountAge ++ " days) with high rating ("
          ++ toString hr ++ ")")⟩
    else if hr > 1700 then
      ⟨baseScore + 5,
        some ("Very new account (" ++ toString accountAge ++ " days) with "
          ++ toString hr ++ " rating")⟩
    else
      ⟨baseScore, some ("Account only " ++ toString accountAge ++ " days old")⟩
  else if accountAge < highThreshold then
    let ageFrac := (accountAge - criticalThreshold) / (highThreshold - criticalThreshold)
    let baseScore := 20 + 10 * (1 - ageFrac)
    if hr > t.highRatingThreshold then
      ⟨baseScore + 8,
        some ("New account (" ++ toString accountAge ++ " days) with high rating ("
          ++ toString hr ++ ")")⟩
    else if hr > 1700 then
      ⟨baseScore + 4,
        some ("New account (" ++ toString accountAge ++ " days) with "
          ++ toString hr ++ " rating")⟩
    else
      ⟨baseScore, some ("New account (" ++ toString accountAge ++ " days old)")⟩
  else if accountAge < suspiciousThreshold then
    let ageFrac := (accountAge - highThreshold) / (suspiciousThreshold - highThreshold)
    let baseScore := 10 + 10 * (1 - ageFrac)
    if hr > t.highRatingThreshold then
      ⟨baseScore + 6,
        some ("Relatively new account (" ++ toString accountAge ++ " days) with high rating ("
          ++ toString hr ++ ")")⟩
    else if hr > 1700 then
      ⟨baseScore + 3,
        some ("Account " ++ toString accountAge ++ " days old with "
          ++ toString hr ++ " rating")⟩
    else
      ⟨baseScore, some ("Account " ++ toString accountAge ++ " days old")⟩
  else
    ⟨0, none⟩

/-- `ProfileAnalyzer.getExpectedGamesForRating`. -/
def getExpectedGamesForRating (rating : ℚ) : ℚ :=
  if rating < 1200 then 50
  else if rating < 1500 then 100
  else if rating < 1800 then 300
  else if rating < 2000 then 500
  else if rating < 2200 then 1000
  else if rating < 2400 then 2000
  else 3000

/-- `ProfileAnalyzer.calculateRatingVsGamesScore`. -/
def calculateRatingVsGamesScore (t : Thresholds) (p : ChessProfile) : SubScore :=
  let totalGames := p.gameStats.total
  let hr := highestRating p.ratings
  let minGames := t.minGamesRequired
  if totalGames < minGames ∧ hr > t.highRatingThreshold then
    ⟨25, some ("Only " ++ toString totalGames ++ " games with " ++ toString hr ++ " rating")⟩
  else if totalGames < minGames * 0.6 ∧ hr > 1800 then
    ⟨20, some ("Few games (" ++ toString totalGames ++ ") for " ++ toString hr ++ " rating")⟩
  else if totalGames < minGames * 2 ∧ hr > 2200 then
    ⟨15, some "Low game count for master-level rating"⟩
  else if totalGames < getExpectedGamesForRating hr * 0.3 then
    ⟨10, some "Unusually fast rating progression"⟩
  else
    ⟨0, none⟩

/-- `ProfileAnalyzer.calculateWinRateScore`. -/
def calculateWinRateScore (t : Thresholds) (p : ChessProfile) : SubScore :=
  let winRate := p.gameStats.winRate
  let totalGames := p.gameStats.total
  if winRate > 85 ∧ totalGames > 20 then
    ⟨20, some (toString winRate ++ "% win rate over " ++ toString totalGames ++ " games")⟩
  else if winRate > 80 ∧ totalGames > 50 then
    ⟨15, some ("Very high win rate: " ++ toString winRate ++ "%")⟩
  else if winRate > t.suspiciousWinRate ∧ totalGames > 100 then
    ⟨10, some ("Unusually high win rate: " ++ toString winRate ++ "%")⟩
  else if winRate < 15 ∧ totalGames > 50 then
    ⟨10, some ("Suspiciously low win rate: " ++ toString winRate ++ "%")⟩
  else
    ⟨0, none⟩

/-- `ProfileAnalyzer.calculateRapidImprovementScore`.  The JavaScript guards
`ratingChange7Days && ratingChange7Days > 300` treat an absent field and a
zero field alike as falsy, modelled through `Option.getD 0` plus `≠ 0`. -/
def calculateRapidImprovementScore (p : ChessProfile) : SubScore :=
  match p.recentActivity with
  | Option.none => ⟨0, none⟩
  | Option.some ra =>
    let c7 := ra.ratingChange7Days.getD 0
    let c30 := ra.ratingChange30Days.getD 0
    if c7 ≠ 0 ∧ c7 > 300 then
      ⟨15, some ("+" ++ toString c7 ++ " rating in 7 days")⟩
    else if c7 ≠ 0 ∧ c7 > 200 then
      ⟨10, some ("Rapid improvement: +" ++ toString c7 ++ " in a week")⟩
    else if c30 ≠ 0 ∧ c30 > 500 then
      ⟨10, some ("+" ++ toString c30 ++ " rating in 30 days")⟩
    else
      ⟨0, none⟩

/-- `ProfileAnalyzer.calculateAccountStatusScore`.  `isViolator || isClosed`
and `isVerified` are JavaScript truthiness tests (absent behaves like
`false`); `isFairPlay === false` only fires on an explicit `false`. -/
def calculateAccountStatusScore (p : ChessProfile) : SubScore :=
  if p.accountStatus.isViolator.getD false || p.accountStatus.isClosed.getD false then
    ⟨10, some "Account flagged by platform"⟩
  else if p.accountStatus.isFairPlay = some false then
    ⟨8, some "Fair play violations detected"⟩
  else if p.accountStatus.isVerified.getD false then
    ⟨-5, none⟩
  else
    ⟨0, none⟩

/-- The running total built up by `calculateSuspicionScore` before clamping:
the five weighted, capped contributions in source order (the account-status
contribution is added unweighted and uncapped in the source). -/
def rawSuspicionScore (t : Thresholds) (p : ChessProfile) : ℚ :=
  min 45 ((calculateAccountAgeScore t p).score * 1.5)
    + min 20 ((calculateRatingVsGamesScore t p).score * 0.8)
    + min 15 ((calculateWinRateScore t p).score * 0.75)
    + min 10 ((calculateRapidImprovementScore p).score * 0.67)
    + (calculateAccountStatusScore p).score

/-- The `reasons` array `calculateSuspicionScore` pushes into
`profile.suspicionReasons`: every sub-score's reason in source order,
omitting the absent ones. -/
def collectedReasons (t : Thresholds) (p : ChessProfile) : List String :=
  [(calculateAccountAgeScore t p).reason,
   (calculateRatingVsGamesScore t p).reason,
   (calculateWinRateScore t p).reason,
   (calculateRapidImprovementScore p).reason,
   (calculateAccountStatusScore p).reason].reduceOption

/-- `ProfileAnalyzer.calculateSuspicionScore`: returns
`Math.min(100, Math.max(0, score))` and (as its side effect on the profile)
the collected reasons list. -/
def calculateSuspicionScore (t : Thresholds) (p : ChessProfile) : ℚ × List String :=
  (min 100 (max 0 (rawSuspicionScore t p)), collectedReasons t p)

/-- `ProfileAnalyzer.getSuspicionLevel`. -/
def getSuspicionLevel (score : ℚ) : SuspicionLevel :=
  if score ≥ 70 then SuspicionLevel.critical
  else if score ≥ 50 then SuspicionLevel.high
  else if score ≥ 30 then SuspicionLevel.medium
  else if score ≥ 15 then SuspicionLevel.low
  else SuspicionLevel.none

/-- The `levels` array from `ProfileAnalyzer.shouldAlert`. -/
def suspicionLevels : List SuspicionLevel :=
  [SuspicionLevel.none, SuspicionLevel.low, SuspicionLevel.medium,
   SuspicionLevel.high, SuspicionLevel.critical]

/-- `levels.indexOf` on that array. -/
def levelIndex (l : SuspicionLevel) : Nat :=
  suspicionLevels.indexOf l

/-- A runtime-partial update of the thresholds object: the spread
`{ ...old, ...update }` only overrides the keys present in `update`. -/
structure ThresholdsUpdate where
  criticalAccountDays : Option ℚ
  highSuspicionAccountDays : Option ℚ
  suspiciousAccountDays : Option ℚ
  highRatingThreshold : Option ℚ
  rapidRatingGainDays : Option ℚ
  rapidRatingGainAmount : Option ℚ
  minGamesRequired : Option ℚ
  suspiciousWinRate : Option ℚ
  suspicionAlertLevel : Option SuspicionLevel
deriving DecidableEq

/-- The slice of `Partial<ExtensionSettings>` the analyzer reads: an
optional `thresholds` member. -/
structure SettingsUpdate where
  thresholds : Option ThresholdsUpdate
deriving DecidableEq

/-- `{ ...this.settings.thresholds, ...settings.thresholds }`. -/
def mergeThresholds (old : Thresholds) (u : ThresholdsUpdate) : Thresholds :=
  ⟨u.criticalAccountDays.getD old.criticalAccountDays,
   u.highSuspicionAccountDays.getD old.highSuspicionAccountDays,
   u.suspiciousAccountDays.getD old.suspiciousAccountDays,
   u.highRatingThreshold.getD old.highRatingThreshold,
   u.rapidRatingGainDays.getD old.rapidRatingGainDays,
   u.rapidRatingGainAmount.getD old.rapidRatingGainAmount,
   u.minGamesRequired.getD old.minGamesRequired,
   u.suspiciousWinRate.getD old.suspiciousWinRate,
   u.suspicionAlertLevel.getD old.suspicionAlertLevel⟩

/-- The analyzer's mutable static state (`ProfileAnalyzer.settings`); only
the thresholds member is ever read or written by the modelled code. -/
structure AnalyzerState where
  thresholds : Thresholds
deriving DecidableEq

/-- `ProfileAnalyzer.settings` starts out as `DEFAULT_SETTINGS`. -/
def initialState : AnalyzerState :=
  ⟨defaultThresholds⟩

/-- `ProfileAnalyzer.updateSettings`: merges a provided thresholds object
into the stored settings, leaves them alone otherwise. -/
def updateSettings (st : AnalyzerState) (s : SettingsUpdate) : AnalyzerState :=
  match s.thresholds with
  | Option.none => st
  | Option.some u => ⟨mergeThresholds st.thresholds u⟩

/-- `ProfileAnalyzer.analyzeProfile`: optionally updates the stored
settings, then computes the score with the (now current) stored thresholds
and writes `suspicionReasons`, `suspicionScore` and `suspicionLevel` into
the input profile object, returning that same object.  The profile
component of the result is therefore also the post-call state of the
caller's record. -/
def analyzeProfile (st : AnalyzerState) (p : ChessProfile) (s : Option SettingsUpdate) :
    ChessProfile × AnalyzerState :=
  let st1 := match s with
    | Option.none => st
    | Option.some su => updateSettings st su
  let r := calculateSuspicionScore st1.thresholds p
  ({ p with
      suspicionReasons := r.2
      suspicionScore := r.1
      suspicionLevel := getSuspicionLevel r.1 }, st1)

/-- Replaces every absent optional numeric field that the scorer reads
through `|| 0` with an explicit zero (and the truthiness-tested status
flags with an explicit `false`), leaving `isFairPlay` and the presence of
`recentActivity` untouched.  Used to state that absent fields are scored
exactly like zero fields. -/
def fillOptionals (p : ChessProfile) : ChessProfile :=
  { p with
      ratings :=
        ⟨some (p.ratings.bullet.getD 0), some (p.ratings.blitz.getD 0),
         some (p.ratings.rapid.getD 0), some (p.ratings.classical.getD 0),
         p.ratings.puzzle⟩
      recentActivity := p.recentActivity.map (fun ra =>
        { ra with
            ratingChange7Days := some (ra.ratingChange7Days.getD 0)
            ratingChange30Days := some (ra.ratingChange30Days.getD 0) })
      accountStatus :=
        { p.accountStatus with
            isVerified := some (p.accountStatus.isVerified.getD false)
            isClosed := some (p.accountStatus.isClosed.getD false)
            isViolator := some (p.accountStatus.isViolator.getD false) } }

/-- `CachedProfile` (src/types/index.ts): the stored ISO timestamp strings
are modelled by the integer millisecond values they denote. -/
structure CachedProfile where
  profile : ChessProfile
  cachedAt : Int
  expiresAt : Int
deriving DecidableEq

/-- The persisted `Record<string, CachedProfile>`: an association list in
JavaScript object key order (insertion order for these string keys). -/
abbrev Cache := List (String × CachedProfile)

/-- Keys of a cache, in order. -/
def cacheKeys (c : Cache) : List String :=
  c.map Prod.fst

/-- Object property read `cache[cacheKey]`. -/
def getEntry : Cache → String → Option CachedProfile
  | [], _ => none
  | e :: rest, k => if e.1 = k then some e.2 else getEntry rest k

/-- Object property write `cache[cacheKey] = entry`: replaces in place when
the key exists, appends otherwise. -/
def setEntry : Cache → String → CachedProfile → Cache
  | [], k, v => [(k, v)]
  | e :: rest, k, v => if e.1 = k then (k, v) :: rest else e :: setEntry rest k v

/-- `delete cache[key]`. -/
def removeEntry : Cache → String → Cache
  | [], _ => []
  | e :: rest, k => if e.1 = k then rest else e :: removeEntry rest k

/-- `CacheManager.getCacheKey`: `platform + ":" + username.toLowerCase()`. -/
def getCacheKey (username platform : String) : String :=
  platform ++ ":" ++ username.toLower

/-- One step of the stable insertion used to model the stable
`entries.sort((a, b) => timeA - timeB)`: the new element goes after every
already-placed element whose `cachedAt` is not greater. -/
def insertByCachedAt : Cache → (String × CachedProfile) → Cache
  | [], x => [x]
  | y :: ys, x =>
    if x.2.cachedAt < y.2.cachedAt then x :: y :: ys else y :: insertByCachedAt ys x

/-- Stable sort of the cache entries by `cachedAt` ascending (JavaScript
`Array.prototype.sort` is stable and the comparator is `timeA - timeB`). -/
def sortByCachedAt (c : Cache) : Cache :=
  c.foldl insertByCachedAt []

/-- `CacheManager.enforceCacheLimit`: when over `maxProfiles` entries, the
oldest entries by `cachedAt` (ties broken by key order, as the stable sort
leaves them) are deleted until at capacity. -/
def enforceCacheLimit (c : Cache) (maxProfiles : Nat) : Cache :=
  if c.length ≤ maxProfiles then c
  else (((sortByCachedAt c).take (c.length - maxProfiles)).map Prod.fst).foldl removeEntry c

/-- `CacheManager.getCachedProfile username platform` at instant `now`:
returns the cached profile when present and not expired; an entry with
`expiresAt < now` is removed (via `removeCachedProfile`) and reported
absent.  The pair is (returned value, cache state after the call). -/
def getCachedProfile (now : Int) (c : Cache) (username platform : String) :
    Option ChessProfile × Cache :=
  let k := getCacheKey username platform
  match getEntry c k with
  | Option.none => (none, c)
  | Option.some cached =>
    if cached.expiresAt < now then (none, removeEntry c k)
    else (some cached.profile, c)

/-- `CacheManager.cacheProfile profile expiryHours` at instant `now`:
writes the entry `{ profile, cachedAt: now, expiresAt: now + expiryHours *
3600000 }` under the profile's key and then enforces the 100-entry limit. -/
def cacheProfile (now : Int) (c : Cache) (p : ChessProfile) (expiryHours : Int) : Cache :=
  enforceCacheLimit
    (setEntry c (getCacheKey p.username p.platform)
      ⟨p, now, now + expiryHours * 3600000⟩) 100

/-- `CacheManager.clearExpiredProfiles` at instant `now`: removes every
entry with `expiresAt < now` and returns how many were removed, together
with the swept cache. -/
def clearExpiredProfiles (now : Int) (c : Cache) : Nat × Cache :=
  ((c.filter (fun e => decide (e.2.expiresAt < now))).length,
   c.filter (fun e => !decide (e.2.expiresAt < now)))

/-- One timed insertion for iterating `cacheProfile` over a batch:
`putAll ttl items c` performs `cacheProfile` for each `(now, profile)` pair
in order. -/
def putAll (ttl : Int) (items : List (Int × ChessProfile)) (c : Cache) : Cache :=
  items.foldl (fun acc it => cacheProfile it.1 acc it.2 ttl) c

/-- The cache entry `cacheProfile` would write for the timed item `it`. -/
def mkCacheEntry (ttl : Int) (it : Int × ChessProfile) : String × CachedProfile :=
  (getCacheKey it.2.username it.2.platform, ⟨it.2, it.1, it.1 + ttl * 3600000⟩)

/-- Empty ratings object (a profile with no ratings present). -/
def noRatings : Ratings :=
  ⟨none, none, none, none, none⟩

/-- Game stats with zero games played. -/
def emptyStats : GameStats :=
  ⟨0, none, none, 0, 0, 0, 0⟩

/-- Account status with no optional flag present. -/
def quietStatus : AccountStatus :=
  ⟨false, none, none, none, none, none⟩

/-- The concrete scenario profile of the spec: 500-day-old account, no
ratings, no games, no recent activity, no status flags. -/
def profileC2 : ChessProfile :=
  ⟨"newplayer", "lichess", 500, "2020-01-01T00:00:00Z", noRatings, none, emptyStats,
   none, quietStatus, 0, SuspicionLevel.none, [], "2025-01-01T00:00:00Z"⟩

/-- The scenario profile with a different account age. -/
def profileAge (a : ℚ) : ChessProfile :=
  { profileC2 with accountAge := a }

/-- Evaluation of the analyzer on the spec's concrete scenario profile:
the rating-vs-games sub-score fires its fourth branch (0 games is fewer
than 0.3 · expectedGames(0) = 15), contributing 10 · 0.8 = 8 points. -/
lemma analyzeProfileC2_eval :
    (analyzeProfile initialState profileC2 none).1.suspicionScore = 8 ∧
    (analyzeProfile initialState profileC2 none).1.suspicionLevel = SuspicionLevel.none ∧
    (analyzeProfile initialState profileC2 none).1.suspicionReasons
      = ["Unusually fast rating progression"] := by
  have hage : calculateAccountAgeScore defaultThresholds profileC2 = ⟨0, none⟩ := rfl
  have hrg : calculateRatingVsGamesScore defaultThresholds profileC2
      = ⟨10, some "Unusually fast rating progression"⟩ := by
    norm_num [calculateRatingVsGamesScore, getExpectedGamesForRating, highestRating,
      profileC2, noRatings, emptyStats, defaultThresholds]
  have hwr : calculateWinRateScore defaultThresholds profileC2 = ⟨0, none⟩ := rfl
  have hri : calculateRapidImprovementScore profileC2 = ⟨0, none⟩ := rfl
  have hstat : calculateAccountStatusScore profileC2 = ⟨0, none⟩ := rfl
  have hraw : rawSuspicionScore defaultThresholds profileC2 = 8 := by
    simp only [rawSuspicionScore, hage, hrg, hwr, hri, hstat]
    norm_num [min_def]
  have hscore : (calculateSuspicionScore defaultThresholds profileC2).1 = 8 := by
    simp only [calculateSuspicionScore, hraw]
    norm_num [min_def, max_def]
  have hreasons : (calculateSuspicionScore defaultThresholds profileC2).2
      = ["Unusually fast rating progression"] := by
    simp only [calculateSuspicionScore, collectedReasons, hage, hrg, hwr, hri, hstat]
    rfl
  refine ⟨hscore, ?_, hreasons⟩
  show getSuspicionLevel (calculateSuspicionScore defaultThresholds profileC2).1
    = SuspicionLevel.none
  rw [hscore]
  norm_num [getSuspicionLevel]

/-- C2 (counterexample): on the spec's concrete scenario (accountAgeDays
500, no ratings, 0 games, default thresholds) the claimed outcome
score = 0 with empty reasons does not hold: the engine returns score 8 and
one reason. -/
theorem analyzeProfileC2_claim_false :
    ¬ ((analyzeProfile initialState profileC2 none).1.suspicionScore = 0 ∧
       (analyzeProfile initialState profileC2 none).1.suspicionLevel = SuspicionLevel.none ∧
       (analyzeProfile initialState profileC2 none).1.suspicionReasons = []) := by
  intro h
  have h8 := analyzeProfileC2_eval.1
  rw [h.1] at h8
  norm_num at h8

/-- C2 (amended): on the concrete scenario profile (accountAgeDays 500, no
ratings, gameStats.total 0, default thresholds) analyzeProfile produces
suspicionScore 8 (the rating-vs-games branch for unusually fast progression
fires at 0 games), suspicionLevel none, and the single reason string
"Unusually fast rating progression". -/
theorem analyzeProfileC2_amended :
    (analyzeProfile initialState profileC2 none).1.suspicionScore = 8 ∧
    (analyzeProfile initialState profileC2 none).1.suspicionLevel = SuspicionLevel.none ∧
    (analyzeProfile initialState profileC2 none).1.suspicionReasons
      = ["Unusually fast rating progression"] :=
  analyzeProfileC2_eval

/-- C5: for every input profile and every threshold configuration the
total suspicion score is clamped to the interval [0, 100]. -/
theorem suspicionScore_clamped (t : Thresholds) (p : ChessProfile) :
    0 ≤ (calculateSuspicionScore t p).1 ∧ (calculateSuspicionScore t p).1 ≤ 100 := by
  refine ⟨?_, ?_⟩ <;> simp only [calculateSuspicionScore]
  · exact le_min (by norm_num) (le_max_left 0 _)
  · exact min_le_left _ _

/-- C6: getSuspicionLevel maps scores to levels by the fixed inclusive
lower bounds 70/50/30/15, is monotone non-decreasing in the score with
respect to the level order none < low < medium < high < critical, and
takes the claimed values at the boundary scores 69, 70, 14 and 15. -/
theorem getSuspicionLevel_spec (s r : ℚ) :
    (70 ≤ s → getSuspicionLevel s = SuspicionLevel.critical) ∧
    (50 ≤ s → s < 70 → getSuspicionLevel s = SuspicionLevel.high) ∧
    (30 ≤ s → s < 50 → getSuspicionLevel s = SuspicionLevel.medium) ∧
    (15 ≤ s → s < 30 → getSuspicionLevel s = SuspicionLevel.low) ∧
    (s < 15 → getSuspicionLevel s = SuspicionLevel.none) ∧
    (s ≤ r → levelIndex (getSuspicionLevel s) ≤ levelIndex (getSuspicionLevel r)) ∧
    getSuspicionLevel 69 = SuspicionLevel.high ∧
    getSuspicionLevel 70 = SuspicionLevel.critical ∧
    getSuspicionLevel 14 = SuspicionLevel.none ∧
    getSuspicionLevel 15 = SuspicionLevel.low := by
  refine ⟨?_, ?_, ?_, ?_, ?_, ?_, ?_, ?_, ?_, ?_⟩
  · intro h; unfold getSuspicionLevel; split_ifs <;> first | rfl | linarith
  · intro h1 h2; unfold getSuspicionLevel; split_ifs <;> first | rfl | linarith
  · intro h1 h2; unfold getSuspicionLevel; split_ifs <;> first | rfl | linarith
  · intro h1 h2; unfold getSuspicionLevel; split_ifs <;> first | rfl | linarith
  · intro h; unfold getSuspicionLevel; split_ifs <;> first | rfl | linarith
  · intro hsr; unfold getSuspicionLevel; split_ifs <;> first | decide | linarith
  · norm_num [getSuspicionLevel]
  · norm_num [getSuspicionLevel]
  · norm_num [getSuspicionLevel]
  · norm_num [getSuspicionLevel]

/-- Witness for the C6 theorem at concrete scores. -/
theorem getSuspicionLevel_spec_w :
    getSuspicionLevel 60 = SuspicionLevel.high ∧
    levelIndex (getSuspicionLevel 20) ≤ levelIndex (getSuspicionLevel 60) :=
  ⟨(getSuspicionLevel_spec 60 60).2.1 (by norm_num) (by norm_num),
   (getSuspicionLevel_spec 20 60).2.2.2.2.2.1 (by norm_num)⟩

/-- C7: the scorer is a total function of the modelled input types (no
evaluation can fail), and every optional field it reads through JavaScript
`|| 0`-style defaulting scores exactly as if it were explicitly 0 (and the
truthiness-tested status flags as if explicitly false): filling the absent
fields changes neither score, level nor reasons. -/
theorem score_ignores_absent_fields (t : Thresholds) (p : ChessProfile) :
    calculateSuspicionScore t (fillOptionals p) = calculateSuspicionScore t p ∧
    ∀ (st : AnalyzerState) (s : Option SettingsUpdate),
      (analyzeProfile st (fillOptionals p) s).1.suspicionScore
          = (analyzeProfile st p s).1.suspicionScore ∧
      (analyzeProfile st (fillOptionals p) s).1.suspicionLevel
          = (analyzeProfile st p s).1.suspicionLevel ∧
      (analyzeProfile st (fillOptionals p) s).1.suspicionReasons
          = (analyzeProfile st p s).1.suspicionReasons := by
  obtain ⟨un, pf, age, cr, rats, peaks, gs, ract, accst, ss, sl, sr, lu⟩ := p
  cases ract <;> exact ⟨rfl, fun st s => ⟨rfl, rfl, rfl⟩⟩

/-- C1 (counterexample): with the default thresholds and no ratings, the
account-age sub-score at age 13 (30 · (1 − 13/14) = 15/7) is strictly
below the sub-score at age 14 (tier-2 entry value 30), so decreasing
accountAgeDays from 14 to 13 decreases the age sub-score. -/
theorem accountAgeScore_not_antitone :
    (calculateAccountAgeScore defaultThresholds (profileAge 13)).score
      < (calculateAccountAgeScore defaultThresholds (profileAge 14)).score := by
  norm_num [calculateAccountAgeScore, defaultThresholds, highestRating, profileAge,
    profileC2, noRatings]

/-- C1 (amended): under the default thresholds the age sub-score is
antitone in accountAgeDays for every pair of ages on the same side of
criticalAccountDays = 14 (both below it, or both at or above it — the
latter including across the 30-day and 365-day boundaries), for every
fixed valuation of the other fields, and every accountAgeDays ≥ 365
yields sub-score 0 with no reason; the monotonicity fails only across
the criticalAccountDays boundary. -/
theorem accountAgeScore_tier_antitone (p : ChessProfile) (a b : ℚ) :
    (a ≤ b →
      (b < 14 ∨ 14 ≤ a) →
      (calculateAccountAgeScore defaultThresholds { p with accountAge := b }).score
        ≤ (calculateAccountAgeScore defaultThresholds { p with accountAge := a }).score) ∧
    (365 ≤ b →
      calculateAccountAgeScore defaultThresholds { p with accountAge := b } = ⟨0, none⟩) := by
  constructor
  · intro hab ht
    simp only [calculateAccountAgeScore, defaultThresholds]
    rcases ht with h1 | h2
    · rw [if_pos h1, if_pos (show a < 14 by linarith)]
      split_ifs <;> dsimp only <;> linarith
    · rw [if_neg (show ¬ b < 14 by push_neg; linarith),
          if_neg (show ¬ a < 14 by push_neg; linarith)]
      by_cases hb30 : b < 30
      · rw [if_pos hb30, if_pos (show a < 30 by linarith)]
        split_ifs <;> dsimp only <;> linarith
      · rw [if_neg hb30]
        by_cases hb365 : b < 365
        · rw [if_pos hb365]
          by_cases ha30 : a < 30
          · rw [if_pos ha30]
            split_ifs <;> dsimp only <;> linarith
          · rw [if_neg ha30, if_pos (show a < 365 by linarith)]
            split_ifs <;> dsimp only <;> linarith
        · rw [if_neg hb365]
          by_cases ha30 : a < 30
          · rw [if_pos ha30]
            split_ifs <;> dsimp only <;> linarith
          · rw [if_neg ha30]
            by_cases ha365 : a < 365
            · rw [if_pos ha365]
              split_ifs <;> dsimp only <;> linarith
            · rw [if_neg ha365]
  · intro hb
    simp only [calculateAccountAgeScore, defaultThresholds]
    rw [if_neg (show ¬ b < 14 by push_neg; linarith),
        if_neg (show ¬ b < 30 by push_neg; linarith),
        if_neg (show ¬ b < 365 by push_neg; linarith)]

/-- Witness for the C1 amended theorem: the age pair 1 ≤ 2 inside tier 1,
the cross-tier pair 20 ≤ 100 (both at or above 14), and age 400 past the
suspicious threshold. -/
theorem accountAgeScore_tier_antitone_w :
    (calculateAccountAgeScore defaultThresholds { profileC2 with accountAge := (2:ℚ) }).score
      ≤ (calculateAccountAgeScore defaultThresholds { profileC2 with accountAge := (1:ℚ) }).score ∧
    (calculateAccountAgeScore defaultThresholds { profileC2 with accountAge := (100:ℚ) }).score
      ≤ (calculateAccountAgeScore defaultThresholds { profileC2 with accountAge := (20:ℚ) }).score ∧
    calculateAccountAgeScore defaultThresholds { profileC2 with accountAge := (400:ℚ) }
      = ⟨0, none⟩ :=
  ⟨(accountAgeScore_tier_antitone profileC2 1 2).1 (by norm_num) (Or.inl (by norm_num)),
   (accountAgeScore_tier_antitone profileC2 20 100).1 (by norm_num) (Or.inr (by norm_num)),
   (accountAgeScore_tier_antitone profileC2 0 400).2 (by norm_num)⟩

/-- C4 (counterexample): analyzeProfile changes the suspicionScore field
of the profile record it is handed (the record it returns is the input
record, mutated): on the concrete scenario profile the stored score 0
becomes 8. -/
theorem analyzeProfile_mutates_input :
    (analyzeProfile initialState profileC2 none).1.suspicionScore
      ≠ profileC2.suspicionScore := by
  have h8 := analyzeProfileC2_eval.1
  rw [h8]
  norm_num [profileC2]

/-- C4 (amended): analyzeProfile writes the computed suspicionScore,
suspicionLevel and suspicionReasons into the input profile record and
returns that same record; every other profile field is unchanged, and
apart from the analyzer's stored settings (updated only when a settings
argument is supplied, and returned here as the state component) no other
state is touched. -/
theorem analyzeProfile_writes_scores_only (st : AnalyzerState) (p : ChessProfile)
    (s : Option SettingsUpdate) :
    (analyzeProfile st p s).1.username = p.username ∧
    (analyzeProfile st p s).1.platform = p.platform ∧
    (analyzeProfile st p s).1.accountAge = p.accountAge ∧
    (analyzeProfile st p s).1.createdAt = p.createdAt ∧
    (analyzeProfile st p s).1.ratings = p.ratings ∧
    (analyzeProfile st p s).1.peakRatings = p.peakRatings ∧
    (analyzeProfile st p s).1.gameStats = p.gameStats ∧
    (analyzeProfile st p s).1.recentActivity = p.recentActivity ∧
    (analyzeProfile st p s).1.accountStatus = p.accountStatus ∧
    (analyzeProfile st p s).1.lastUpdated = p.lastUpdated ∧
    (analyzeProfile st p s).1.suspicionScore
      = (calculateSuspicionScore (analyzeProfile st p s).2.thresholds p).1 ∧
    (analyzeProfile st p s).1.suspicionLevel
      = getSuspicionLevel (calculateSuspicionScore (analyzeProfile st p s).2.thresholds p).1 ∧
    (analyzeProfile st p s).1.suspicionReasons
      = (calculateSuspicionScore (analyzeProfile st p s).2.thresholds p).2 :=
  ⟨rfl, rfl, rfl, rfl, rfl, rfl, rfl, rfl, rfl, rfl, rfl, rfl, rfl⟩

/-- Threshold update supplying only criticalAccountDays = 100. -/
def updC3a : ThresholdsUpdate :=
  ⟨some 100, none, none, none, none, none, none, none, none⟩

/-- Threshold update supplying only highRatingThreshold = 2500 (it omits
criticalAccountDays). -/
def updC3b : ThresholdsUpdate :=
  ⟨none, none, none, some 2500, none, none, none, none, none⟩

/-- A 50-day-old version of the scenario profile. -/
def profileC3 : ChessProfile :=
  { profileC2 with accountAge := 50 }

/-- The thresholds in effect for the first call of the C3 counterexample
(critical days 100 from the earlier update, high rating 2500 from the
call's own settings). -/
def tC3L : Thresholds :=
  ⟨100, 30, 365, 2500, 30, 300, 50, 75, SuspicionLevel.high⟩

/-- The thresholds the C3 claim says the call should be scored with
(documented defaults, with only the supplied high rating changed). -/
def tC3R : Thresholds :=
  ⟨14, 30, 365, 2500, 30, 300, 50, 75, SuspicionLevel.high⟩

/-- C3 (counterexample): an analyzeProfile call whose settings omit
criticalAccountDays does not fall back to the documented default 14: after
an earlier updateSettings call that set criticalAccountDays to 100, the
same call on the same profile with the same partial settings yields a
different score than it does from the pristine default state, so the score
does not depend only on the profile and the thresholds supplied in that
call. -/
theorem analyzeProfile_settings_persist :
    (analyzeProfile (updateSettings initialState ⟨some updC3a⟩) profileC3
        (some ⟨some updC3b⟩)).1.suspicionScore
      ≠ (analyzeProfile initialState profileC3 (some ⟨some updC3b⟩)).1.suspicionScore := by
  have hageL : (calculateAccountAgeScore tC3L profileC3).score = 15 := by
    norm_num [calculateAccountAgeScore, highestRating, profileC3, profileC2, noRatings, tC3L]
  have hageR : (calculateAccountAgeScore tC3R profileC3).score = 1300/67 := by
    norm_num [calculateAccountAgeScore, highestRating, profileC3, profileC2, noRatings, tC3R]
  have hrgL : (calculateRatingVsGamesScore tC3L profileC3).score = 10 := by
    norm_num [calculateRatingVsGamesScore, getExpectedGamesForRating, highestRating,
      profileC3, profileC2, noRatings, emptyStats, tC3L]
  have hrgR : (calculateRatingVsGamesScore tC3R profileC3).score = 10 := by
    norm_num [calculateRatingVsGamesScore, getExpectedGamesForRating, highestRating,
      profileC3, profileC2, noRatings, emptyStats, tC3R]
  have hwrL : (calculateWinRateScore tC3L profileC3).score = 0 := rfl
  have hwrR : (calculateWinRateScore tC3R profileC3).score = 0 := rfl
  have hri : (calculateRapidImprovementScore profileC3).score = 0 := rfl
  have hstat : (calculateAccountStatusScore profileC3).score = 0 := rfl
  have hrawL : rawSuspicionScore tC3L profileC3 = 61/2 := by
    simp only [rawSuspicionScore, hageL, hrgL, hwrL, hri, hstat]
    norm_num [min_def]
  have hrawR : rawSuspicionScore tC3R profileC3 = 2486/67 := by
    simp only [rawSuspicionScore, hageR, hrgR, hwrR, hri, hstat]
    norm_num [min_def]
  show (calculateSuspicionScore tC3L profileC3).1 ≠ (calculateSuspicionScore tC3R profileC3).1
  simp only [calculateSuspicionScore, hrawL, hrawR]
  norm_num [min_def, max_def]

/-- C3 (amended): thresholds omitted from a call's settings fall back to
the analyzer's currently stored settings — which start at the documented
defaults (14/30/365/2000/50/75) but persist across calls — and supplied
thresholds are merged into that stored state. -/
theorem analyzeProfile_thresholds_semantics (st : AnalyzerState) (p : ChessProfile)
    (u : ThresholdsUpdate) :
    (analyzeProfile st p none).2 = st ∧
    (analyzeProfile st p none).1.suspicionScore = (calculateSuspicionScore st.thresholds p).1 ∧
    (analyzeProfile st p (some ⟨some u⟩)).2 = ⟨mergeThresholds st.thresholds u⟩ ∧
    (analyzeProfile st p (some ⟨some u⟩)).1.suspicionScore
      = (calculateSuspicionScore (mergeThresholds st.thresholds u) p).1 ∧
    (mergeThresholds st.thresholds u).criticalAccountDays
      = u.criticalAccountDays.getD st.thresholds.criticalAccountDays ∧
    (mergeThresholds st.thresholds u).highSuspicionAccountDays
      = u.highSuspicionAccountDays.getD st.thresholds.highSuspicionAccountDays ∧
    (mergeThresholds st.thresholds u).suspiciousAccountDays
      = u.suspiciousAccountDays.getD st.thresholds.suspiciousAccountDays ∧
    (mergeThresholds st.thresholds u).highRatingThreshold
      = u.highRatingThreshold.getD st.thresholds.highRatingThreshold ∧
    (mergeThresholds st.thresholds u).minGamesRequired
      = u.minGamesRequired.getD st.thresholds.minGamesRequired ∧
    (mergeThresholds st.thresholds u).suspiciousWinRate
      = u.suspiciousWinRate.getD st.thresholds.suspiciousWinRate ∧
    initialState.thresholds = defaultThresholds ∧
    defaultThresholds.criticalAccountDays = 14 ∧
    defaultThresholds.highSuspicionAccountDays = 30 ∧
    defaultThresholds.suspiciousAccountDays = 365 ∧
    defaultThresholds.highRatingThreshold = 2000 ∧
    defaultThresholds.minGamesRequired = 50 ∧
    defaultThresholds.suspiciousWinRate = 75 :=
  ⟨rfl, rfl, rfl, rfl, rfl, rfl, rfl, rfl, rfl, rfl, rfl, rfl, rfl, rfl, rfl, rfl, rfl⟩

@[simp]
lemma cacheKeys_nil : cacheKeys [] = [] :=
  rfl

@[simp]
lemma cacheKeys_cons (e : String × CachedProfile) (c : Cache) :
    cacheKeys (e :: c) = e.1 :: cacheKeys c :=
  rfl

@[simp]
lemma cacheKeys_append (c d : Cache) : cacheKeys (c ++ d) = cacheKeys c ++ cacheKeys d :=
  List.map_append _ _ _

lemma getEntry_setEntry_self (c : Cache) (k : String) (v : CachedProfile) :
    getEntry (setEntry c k v) k = some v := by
  induction c with
  | nil => simp [setEntry, getEntry]
  | cons e rest ih =>
    rcases eq_or_ne e.1 k with h | h
    · simp [setEntry, getEntry, h]
    · simp [setEntry, getEntry, h, ih]

lemma getEntry_eq_none_of_not_mem (c : Cache) (k : String) (h : k ∉ cacheKeys c) :
    getEntry c k = none := by
  induction c with
  | nil => rfl
  | cons e rest ih =>
    simp only [cacheKeys_cons, List.mem_cons, not_or] at h
    simp [getEntry, Ne.symm h.1, ih h.2]

lemma getEntry_removeEntry_ne (c : Cache) (k q : String) (h : q ≠ k) :
    getEntry (removeEntry c q) k = getEntry c k := by
  induction c with
  | nil => rfl
  | cons e rest ih =>
    rcases eq_or_ne e.1 q with he | he
    · simp [removeEntry, he, getEntry, h, Ne.symm h]
    · rcases eq_or_ne e.1 k with hek | hek
      · simp [removeEntry, he, getEntry, hek, Ne.symm h]
      · simp [removeEntry, he, getEntry, hek, ih]

lemma getEntry_removeEntry_self (c : Cache) (k : String)
    (h : (cacheKeys c).Nodup) : getEntry (removeEntry c k) k = none := by
  induction c with
  | nil => rfl
  | cons e rest ih =>
    simp only [cacheKeys_cons, List.nodup_cons] at h
    rcases eq_or_ne e.1 k with hek | hek
    · simp only [removeEntry, if_pos hek]
      exact getEntry_eq_none_of_not_mem rest k (hek ▸ h.1)
    · simp [removeEntry, hek, getEntry, ih h.2]

lemma removeEntry_sublist (c : Cache) (k : String) :
    List.Sublist (removeEntry c k) c := by
  induction c with
  | nil => simp [removeEntry]
  | cons e rest ih =>
    rcases eq_or_ne e.1 k with hek | hek
    · simpa [removeEntry, hek] using List.sublist_cons_self e rest
    · simpa [removeEntry, hek] using ih.cons₂ e

lemma foldl_removeEntry_sublist (ks : List String) (c : Cache) :
    List.Sublist (ks.foldl removeEntry c) c := by
  induction ks generalizing c with
  | nil => exact List.Sublist.refl c
  | cons k ks ih => exact (ih (removeEntry c k)).trans (removeEntry_sublist c k)

lemma getEntry_foldl_removeEntry (ks : List String) (c : Cache) (k : String)
    (h : k ∉ ks) : getEntry (ks.foldl removeEntry c) k = getEntry c k := by
  induction ks generalizing c with
  | nil => rfl
  | cons q qs ih =>
    simp only [List.mem_cons, not_or] at h
    simp only [List.foldl_cons]
    rw [ih (removeEntry c q) h.2, getEntry_removeEntry_ne c k q (Ne.symm h.1)]

lemma cacheKeys_setEntry_subset (c : Cache) (k : String) (v : CachedProfile) :
    ∀ q ∈ cacheKeys (setEntry c k v), q = k ∨ q ∈ cacheKeys c := by
  induction c with
  | nil => simp [setEntry]
  | cons e rest ih =>
    rcases eq_or_ne e.1 k with hek | hek
    · simp only [setEntry, if_pos hek]
      intro q hq
      rcases List.mem_cons.mp hq with h | h
      · exact Or.inl h
      · exact Or.inr (by simpa [cacheKeys] using Or.inr h)
    · simp only [setEntry, if_neg hek]
      intro q hq
      rcases List.mem_cons.mp hq with h | h
      · exact Or.inr (by simpa [cacheKeys] using Or.inl h)
      · rcases ih q h with h2 | h2
        · exact Or.inl h2
        · exact Or.inr (by simpa [cacheKeys] using Or.inr h2)

lemma keys_nodup_setEntry (c : Cache) (k : String) (v : CachedProfile)
    (h : (cacheKeys c).Nodup) : (cacheKeys (setEntry c k v)).Nodup := by
  induction c with
  | nil => simp [setEntry, cacheKeys]
  | cons e rest ih =>
    simp only [cacheKeys_cons, List.nodup_cons] at h
    rcases eq_or_ne e.1 k with hek | hek
    · simp only [setEntry, if_pos hek, cacheKeys_cons, List.nodup_cons]
      exact ⟨hek ▸ h.1, h.2⟩
    · simp only [setEntry, if_neg hek, cacheKeys_cons, List.nodup_cons]
      refine ⟨fun hmem => ?_, ih h.2⟩
      rcases cacheKeys_setEntry_subset rest k v e.1 hmem with h2 | h2
      · exact hek h2
      · exact h.1 h2

lemma setEntry_fresh (c : Cache) (k : String) (v : CachedProfile)
    (h : k ∉ cacheKeys c) : setEntry c k v = c ++ [(k, v)] := by
  induction c with
  | nil => rfl
  | cons e rest ih =>
    simp only [cacheKeys_cons, List.mem_cons, not_or] at h
    simp [setEntry, Ne.symm h.1, ih h.2]

lemma setEntry_decomp (c : Cache) (k : String) (v : CachedProfile) :
    ∃ c1 c2, setEntry c k v = c1 ++ (k, v) :: c2 ∧
      (∀ e ∈ c1, e ∈ c) ∧ (∀ e ∈ c2, e ∈ c) ∧
      ((cacheKeys c).Nodup → k ∉ cacheKeys (c1 ++ c2)) := by
  induction c with
  | nil => exact ⟨[], [], rfl, by simp, by simp, by simp⟩
  | cons e rest ih =>
    rcases eq_or_ne e.1 k with hek | hek
    · refine ⟨[], rest, by simp [setEntry, hek], by simp,
        fun x hx => List.mem_cons_of_mem e hx, fun hnd => ?_⟩
      simp only [cacheKeys_cons, List.nodup_cons] at hnd
      have h1 : k ∉ cacheKeys rest := hek ▸ hnd.1
      simpa using h1
    · obtain ⟨c1, c2, hdec, h1, h2, hnd⟩ := ih
      refine ⟨e :: c1, c2, by simp [setEntry, hek, hdec], ?_,
        fun x hx => List.mem_cons_of_mem e (h2 x hx), fun hnd2 => ?_⟩
      · intro x hx
        rcases List.mem_cons.mp hx with h | h
        · exact h ▸ List.mem_cons_self e rest
        · exact List.mem_cons_of_mem e (h1 x h)
      · simp only [cacheKeys_cons, List.nodup_cons] at hnd2
        simp only [List.cons_append, cacheKeys_cons, List.mem_cons, not_or]
        exact ⟨Ne.symm hek, hnd hnd2.2⟩

lemma insertByCachedAt_perm (acc : Cache) (x : String × CachedProfile) :
    List.Perm (insertByCachedAt acc x) (x :: acc) := by
  induction acc with
  | nil => exact List.Perm.refl _
  | cons y ys ih =>
    simp only [insertByCachedAt]
    split_ifs with h
    · exact List.Perm.refl _
    · exact (ih.cons y).trans (List.Perm.swap x y ys)

lemma sortAux_perm (l : Cache) :
    ∀ acc : Cache, List.Perm (l.foldl insertByCachedAt acc) (acc ++ l) := by
  induction l with
  | nil => intro acc; simp
  | cons x xs ih =>
    intro acc
    simp only [List.foldl_cons]
    exact ((ih _).trans ((insertByCachedAt_perm acc x).append_right xs)).trans
      List.perm_middle.symm

lemma sortByCachedAt_perm (c : Cache) : List.Perm (sortByCachedAt c) c := by
  simpa [sortByCachedAt] using sortAux_perm c []

lemma insertByCachedAt_append (acc : Cache) (x : String × CachedProfile)
    (h : ∀ y ∈ acc, ¬ x.2.cachedAt < y.2.cachedAt) :
    insertByCachedAt acc x = acc ++ [x] := by
  induction acc with
  | nil => rfl
  | cons y ys ih =>
    simp only [insertByCachedAt]
    rw [if_neg (h y (List.mem_cons_self y ys))]
    simp [ih (fun z hz => h z (List.mem_cons_of_mem y hz))]

lemma insertByCachedAt_append_max (acc : Cache) (m x : String × CachedProfile)
    (h : x.2.cachedAt < m.2.cachedAt) :
    insertByCachedAt (acc ++ [m]) x = insertByCachedAt acc x ++ [m] := by
  induction acc with
  | nil => simp [insertByCachedAt, h]
  | cons y ys ih =>
    simp only [List.cons_append, insertByCachedAt]
    split_ifs with hxy
    · simp
    · simp [ih]

lemma sortAux_append_max (l : Cache) (m : String × CachedProfile)
    (hl : ∀ e ∈ l, e.2.cachedAt < m.2.cachedAt) :
    ∀ acc : Cache,
      l.foldl insertByCachedAt (acc ++ [m]) = l.foldl insertByCachedAt acc ++ [m] := by
  induction l with
  | nil => intro acc; rfl
  | cons x xs ih =>
    intro acc
    simp only [List.foldl_cons]
    rw [insertByCachedAt_append_max acc m x (hl x (List.mem_cons_self x xs))]
    exact ih (fun e he => hl e (List.mem_cons_of_mem x he)) _

lemma sortByCachedAt_strictmax (c1 c2 : Cache) (m : String × CachedProfile)
    (h1 : ∀ e ∈ c1, e.2.cachedAt < m.2.cachedAt)
    (h2 : ∀ e ∈ c2, e.2.cachedAt < m.2.cachedAt) :
    sortByCachedAt (c1 ++ m :: c2)
      = c2.foldl insertByCachedAt (sortByCachedAt c1) ++ [m] := by
  unfold sortByCachedAt
  rw [List.foldl_append]
  simp only [List.foldl_cons]
  have hS : ∀ y ∈ List.foldl insertByCachedAt [] c1, ¬ m.2.cachedAt < y.2.cachedAt := by
    intro y hy
    have hy2 : y ∈ c1 := by simpa using (sortAux_perm c1 []).subset hy
    exact lt_asymm (h1 y hy2)
  rw [insertByCachedAt_append _ _ hS]
  exact sortAux_append_max c2 m h2 _

lemma sortAux_of_pairwise (l : Cache) :
    ∀ acc : Cache,
      (∀ y ∈ acc, ∀ x ∈ l, ¬ x.2.cachedAt < y.2.cachedAt) →
      l.Pairwise (fun a b => ¬ b.2.cachedAt < a.2.cachedAt) →
      l.foldl insertByCachedAt acc = acc ++ l := by
  induction l with
  | nil => intro acc _ _; simp
  | cons x xs ih =>
    intro acc hacc hp
    simp only [List.foldl_cons]
    rw [insertByCachedAt_append acc x (fun y hy => hacc y hy x (List.mem_cons_self x xs))]
    have hcond : ∀ y ∈ acc ++ [x], ∀ z ∈ xs, ¬ z.2.cachedAt < y.2.cachedAt := by
      intro y hy z hz
      rcases List.mem_append.mp hy with h | h
      · exact hacc y h z (List.mem_cons_of_mem x hz)
      · have hyx : y = x := by simpa using h
        exact hyx ▸ (List.pairwise_cons.mp hp).1 z hz
    rw [ih (acc ++ [x]) hcond (List.Pairwise.sublist (List.sublist_cons_self x xs) hp)]
    simp

lemma enforce_le (c : Cache) (n : Nat) (h : c.length ≤ n) : enforceCacheLimit c n = c := by
  simp [enforceCacheLimit, h]

lemma keys_nodup_enforce (c : Cache) (n : Nat) (h : (cacheKeys c).Nodup) :
    (cacheKeys (enforceCacheLimit c n)).Nodup := by
  unfold enforceCacheLimit
  split_ifs with hle
  · exact h
  · exact List.Nodup.sublist ((foldl_removeEntry_sublist _ _).map Prod.fst) h

lemma getEntry_enforce_strictmax (c : Cache) (k : String) (v : CachedProfile)
    (hnd : (cacheKeys c).Nodup) (hmax : ∀ e ∈ c, e.2.cachedAt < v.cachedAt) :
    getEntry (enforceCacheLimit (setEntry c k v) 100) k = some v := by
  obtain ⟨c1, c2, hdec, hc1, hc2, hkfresh⟩ := setEntry_decomp c k v
  have hkf := hkfresh hnd
  by_cases hlen : (setEntry c k v).length ≤ 100
  · rw [enforce_le _ _ hlen, getEntry_setEntry_self]
  · unfold enforceCacheLimit
    rw [if_neg hlen]
    have h1 : ∀ e ∈ c1, e.2.cachedAt < v.cachedAt := fun e he => hmax e (hc1 e he)
    have h2 : ∀ e ∈ c2, e.2.cachedAt < v.cachedAt := fun e he => hmax e (hc2 e he)
    rw [hdec, sortByCachedAt_strictmax c1 c2 (k, v) h1 h2]
    have hTperm : List.Perm (c2.foldl insertByCachedAt (sortByCachedAt c1))
        (sortByCachedAt c1 ++ c2) := sortAux_perm c2 _
    have hTlen : (c2.foldl insertByCachedAt (sortByCachedAt c1)).length
        = c1.length + c2.length := by
      rw [hTperm.length_eq]
      simp [(sortByCachedAt_perm c1).length_eq]
    have hlen2 : (c1 ++ (k, v) :: c2).length
        = (c2.foldl insertByCachedAt (sortByCachedAt c1)).length + 1 := by
      simp [hTlen]
      omega
    rw [List.take_append_of_le_length (by omega)]
    have hknotin : k ∉ ((c2.foldl insertByCachedAt (sortByCachedAt c1)).take
        ((c1 ++ (k, v) :: c2).length - 100)).map Prod.fst := by
      intro hmem
      have hsub : List.Sublist
          (((c2.foldl insertByCachedAt (sortByCachedAt c1)).take
            ((c1 ++ (k, v) :: c2).length - 100)).map Prod.fst)
          ((c2.foldl insertByCachedAt (sortByCachedAt c1)).map Prod.fst) :=
        (List.take_sublist _ _).map Prod.fst
      have hmem2 : k ∈ (c2.foldl insertByCachedAt (sortByCachedAt c1)).map Prod.fst :=
        hsub.subset hmem
      have hmem3 : k ∈ (sortByCachedAt c1 ++ c2).map Prod.fst :=
        (hTperm.map Prod.fst).subset hmem2
      have hmem4 : k ∈ cacheKeys (c1 ++ c2) := by
        simp only [List.map_append, List.mem_append] at hmem3
        rcases hmem3 with h | h
        · have : k ∈ cacheKeys c1 := ((sortByCachedAt_perm c1).map Prod.fst).subset h
          simp [this]
        · simp [cacheKeys]
          right
          simpa [cacheKeys] using h
      exact hkf hmem4
    rw [getEntry_foldl_removeEntry _ _ _ hknotin, ← hdec, getEntry_setEntry_self]

/-- C8: cache round-trip.  After a `cacheProfile` write at instant `tPut`
(into a well-formed cache whose entries were all written before `tPut`), a
`getCachedProfile` read of the same key — platform verbatim, username
compared case-insensitively — returns the cached profile whenever the read
happens before the entry's `expiresAt`, and returns `none` while deleting
the entry from the store whenever the read happens after `expiresAt`. -/
theorem cacheProfile_roundtrip (c : Cache) (p : ChessProfile) (ttl tPut tGet : Int)
    (u : String) (hnd : (cacheKeys c).Nodup) (hmono : ∀ e ∈ c, e.2.cachedAt < tPut)
    (hu : u.toLower = p.username.toLower) :
    (tGet < tPut + ttl * 3600000 →
      (getCachedProfile tGet (cacheProfile tPut c p ttl) u p.platform).1 = some p) ∧
    (tPut + ttl * 3600000 < tGet →
      (getCachedProfile tGet (cacheProfile tPut c p ttl) u p.platform).1 = none ∧
      getEntry (getCachedProfile tGet (cacheProfile tPut c p ttl) u p.platform).2
        (getCacheKey p.username p.platform) = none) := by
  have hkey : getCacheKey u p.platform = getCacheKey p.username p.platform := by
    simp [getCacheKey, hu]
  have hget : getEntry (cacheProfile tPut c p ttl) (getCacheKey p.username p.platform)
      = some ⟨p, tPut, tPut + ttl * 3600000⟩ :=
    getEntry_enforce_strictmax c (getCacheKey p.username p.platform)
      ⟨p, tPut, tPut + ttl * 3600000⟩ hnd hmono
  have hnd2 : (cacheKeys (cacheProfile tPut c p ttl)).Nodup :=
    keys_nodup_enforce _ _ (keys_nodup_setEntry c _ _ hnd)
  constructor
  · intro hvalid
    simp only [getCachedProfile, hkey, hget]
    rw [if_neg (lt_asymm hvalid)]
  · intro hexp
    simp only [getCachedProfile, hkey, hget]
    rw [if_pos hexp]
    exact ⟨rfl, getEntry_removeEntry_self _ _ hnd2⟩

/-- Witness for the C8 theorem: a single profile cached into the empty
store at time 0 with a 1-hour TTL, read back at times 1 and 3600001. -/
theorem cacheProfile_roundtrip_w :
    (getCachedProfile 1 (cacheProfile 0 [] profileC2 1) profileC2.username
        profileC2.platform).1 = some profileC2 ∧
    (getCachedProfile 3600001 (cacheProfile 0 [] profileC2 1) profileC2.username
        profileC2.platform).1 = none :=
  ⟨(cacheProfile_roundtrip [] profileC2 1 0 1 profileC2.username (by simp [cacheKeys])
      (by simp) rfl).1 (by norm_num),
   ((cacheProfile_roundtrip [] profileC2 1 0 3600001 profileC2.username (by simp [cacheKeys])
      (by simp) rfl).2 (by norm_num)).1⟩

/-- C10: expiry comparisons are strict at the boundary.  An entry whose
`expiresAt` equals the current instant is still valid: `getCachedProfile`
returns its profile and leaves the store untouched, and
`clearExpiredProfiles` keeps every such entry and counts only entries with
`expiresAt` strictly below the current instant. -/
theorem expiry_boundary_strict (c : Cache) (u pf : String) (e : CachedProfile) (now : Int)
    (he : getEntry c (getCacheKey u pf) = some e) (hb : e.expiresAt = now) :
    getCachedProfile now c u pf = (some e.profile, c) ∧
    (∀ x ∈ c, x.2.expiresAt = now → x ∈ (clearExpiredProfiles now c).2) ∧
    (clearExpiredProfiles now c).1
      = (c.filter (fun x => decide (x.2.expiresAt < now))).length := by
  refine ⟨?_, ?_, rfl⟩
  · simp only [getCachedProfile, he]
    rw [if_neg (by rw [hb]; exact lt_irrefl now)]
  · intro x hx hxe
    simp only [clearExpiredProfiles, List.mem_filter]
    refine ⟨hx, ?_⟩
    rw [hxe]
    simp

/-- Witness for the C10 theorem: one entry expiring exactly at the instant
it is read. -/
theorem expiry_boundary_strict_w :
    getCachedProfile 5 [(getCacheKey "a" "lichess", ⟨profileC2, 0, 5⟩)] "a" "lichess"
      = (some profileC2, [(getCacheKey "a" "lichess", ⟨profileC2, 0, 5⟩)]) ∧
    (getCacheKey "a" "lichess", (⟨profileC2, 0, 5⟩ : CachedProfile))
      ∈ (clearExpiredProfiles 5 [(getCacheKey "a" "lichess", ⟨profileC2, 0, 5⟩)]).2 := by
  have h := expiry_boundary_strict [(getCacheKey "a" "lichess", ⟨profileC2, 0, 5⟩)]
    "a" "lichess" ⟨profileC2, 0, 5⟩ 5 (by simp [getEntry]) rfl
  exact ⟨h.1, h.2.1 _ (by simp) rfl⟩

/-- The cache key a timed item is stored under. -/
def itemKey (it : Int × ChessProfile) : String :=
  getCacheKey it.2.username it.2.platform

lemma putAll_append (ttl : Int) (l1 l2 : List (Int × ChessProfile)) (c : Cache) :
    putAll ttl (l1 ++ l2) c = putAll ttl l2 (putAll ttl l1 c) :=
  List.foldl_append _ _ _ _

lemma cacheKeys_map_mkCacheEntry (ttl : Int) (l : List (Int × ChessProfile)) :
    cacheKeys (l.map (mkCacheEntry ttl)) = l.map itemKey := by
  simp only [cacheKeys, List.map_map]
  rfl

lemma putAll_small (ttl : Int) (items : List (Int × ChessProfile)) :
    ∀ c : Cache, c.length + items.length ≤ 100 →
      (∀ it ∈ items, itemKey it ∉ cacheKeys c) →
      (items.map itemKey).Nodup →
      putAll ttl items c = c ++ items.map (mkCacheEntry ttl) := by
  induction items with
  | nil => intro c _ _ _; simp [putAll]
  | cons it its ih =>
    intro c hlen hfresh hnd
    have hk : itemKey it ∉ cacheKeys c := hfresh it (List.mem_cons_self it its)
    have hk2 : getCacheKey it.2.username it.2.platform ∉ cacheKeys c := hk
    have hstep : cacheProfile it.1 c it.2 ttl = c ++ [mkCacheEntry ttl it] := by
      unfold cacheProfile mkCacheEntry
      rw [setEntry_fresh c _ _ hk2]
      apply enforce_le
      simp only [List.length_append, List.length_cons, List.length_nil]
      simp only [List.length_cons] at hlen
      omega
    have hnd2 := List.nodup_cons.mp (show (itemKey it :: its.map itemKey).Nodup from hnd)
    calc putAll ttl (it :: its) c
        = putAll ttl its (cacheProfile it.1 c it.2 ttl) := rfl
      _ = putAll ttl its (c ++ [mkCacheEntry ttl it]) := by rw [hstep]
      _ = (c ++ [mkCacheEntry ttl it]) ++ its.map (mkCacheEntry ttl) := by
          refine ih _ ?_ ?_ hnd2.2
          · simp only [List.length_append, List.length_cons, List.length_nil]
            simp only [List.length_cons] at hlen
            omega
          · intro it2 hit2
            rw [show c ++ [mkCacheEntry ttl it]
              = c ++ (([it] : List (Int × ChessProfile)).map (mkCacheEntry ttl)) from rfl]
            rw [cacheKeys_append, cacheKeys_map_mkCacheEntry]
            simp only [List.map_cons, List.map_nil, List.mem_append, List.mem_cons,
              List.not_mem_nil, or_false, not_or]
            refine ⟨hfresh it2 (List.mem_cons_of_mem it hit2), fun hcontra => ?_⟩
            exact hnd2.1 (hcontra ▸ List.mem_map_of_mem itemKey hit2)
      _ = c ++ (it :: its).map (mkCacheEntry ttl) := by simp

/-- C9: capacity enforcement runs on every put (the first conjunct is the
definitional shape of `cacheProfile`), and a batch of 101 puts with
pairwise-distinct keys and strictly increasing timestamps, starting from
the empty store, leaves exactly the 100 newest entries: the single evicted
entry is exactly the oldest one by `cachedAt`. -/
theorem cacheProfile_capacity (items : List (Int × ChessProfile)) (ttl : Int)
    (hlen : items.length = 101)
    (hkeys : (items.map itemKey).Nodup)
    (htimes : items.Chain' (fun a b => a.1 < b.1)) :
    (∀ (now : Int) (c : Cache) (q : ChessProfile),
      cacheProfile now c q ttl
        = enforceCacheLimit (setEntry c (getCacheKey q.username q.platform)
            ⟨q, now, now + ttl * 3600000⟩) 100) ∧
    putAll ttl items [] = (items.drop 1).map (mkCacheEntry ttl) ∧
    (putAll ttl items []).length = 100 := by
  have hmain : putAll ttl items [] = (items.drop 1).map (mkCacheEntry ttl) := by
    obtain ⟨i0, rest, rfl⟩ : ∃ i0 rest, items = i0 :: rest := by
      cases items with
      | nil => simp at hlen
      | cons a l => exact ⟨a, l, rfl⟩
    have hrlen : rest.length = 100 := by simpa using hlen
    obtain ⟨mid, lastIt, rfl⟩ : ∃ mid lastIt, rest = mid ++ [lastIt] := by
      rcases hrev : rest.reverse with _ | ⟨a, t⟩
      · rw [show rest = [] by simpa using congrArg List.reverse hrev] at hrlen
        simp at hrlen
      · refine ⟨t.reverse, a, ?_⟩
        simpa using congrArg List.reverse hrev
    have hAlen : (i0 :: mid).length = 100 := by simpa using hrlen
    have hkeysA : ((i0 :: mid).map itemKey).Nodup := by
      refine List.Nodup.sublist (List.Sublist.map itemKey ?_) hkeys
      exact (List.sublist_append_left mid [lastIt]).cons₂ i0
    have hputA : putAll ttl (i0 :: mid) [] = (i0 :: mid).map (mkCacheEntry ttl) := by
      have := putAll_small ttl (i0 :: mid) [] (by simp [hAlen]) (by simp [cacheKeys]) hkeysA
      simpa using this
    have hsplit : putAll ttl (i0 :: (mid ++ [lastIt])) []
        = cacheProfile lastIt.1 ((i0 :: mid).map (mkCacheEntry ttl)) lastIt.2 ttl := by
      rw [show (i0 :: (mid ++ [lastIt])) = (i0 :: mid) ++ [lastIt] from rfl,
        putAll_append, hputA]
      rfl
    have hkeys2 : itemKey lastIt ∉ (i0 :: mid).map itemKey := by
      have h3 : ((i0 :: mid).map itemKey ++ [itemKey lastIt]).Nodup := by
        have : ((i0 :: mid) ++ [lastIt]).map itemKey
            = (i0 :: mid).map itemKey ++ [itemKey lastIt] := by simp
        exact this ▸ hkeys
      intro hmem
      rcases List.nodup_append.mp h3 with ⟨_, _, hdisj⟩
      exact hdisj hmem (by simp)
    have hfreshLast : itemKey lastIt ∉ cacheKeys ((i0 :: mid).map (mkCacheEntry ttl)) := by
      rw [cacheKeys_map_mkCacheEntry]
      exact hkeys2
    have hfreshLast2 : getCacheKey lastIt.2.username lastIt.2.platform
        ∉ cacheKeys ((i0 :: mid).map (mkCacheEntry ttl)) := hfreshLast
    have hsetFresh : setEntry ((i0 :: mid).map (mkCacheEntry ttl))
        (getCacheKey lastIt.2.username lastIt.2.platform)
        ⟨lastIt.2, lastIt.1, lastIt.1 + ttl * 3600000⟩
        = (i0 :: (mid ++ [lastIt])).map (mkCacheEntry ttl) := by
      rw [setEntry_fresh _ _ _ hfreshLast2]
      simp [mkCacheEntry]
    have hLlen : ((i0 :: (mid ++ [lastIt])).map (mkCacheEntry ttl)).length = 101 := by
      simpa using hlen
    have hpw : ((i0 :: (mid ++ [lastIt])).map (mkCacheEntry ttl)).Pairwise
        (fun a b => ¬ b.2.cachedAt < a.2.cachedAt) := by
      haveI : IsTrans (Int × ChessProfile) (fun a b => a.1 < b.1) :=
        ⟨fun _ _ _ => lt_trans⟩
      have hp1 : (i0 :: (mid ++ [lastIt])).Pairwise (fun a b => a.1 < b.1) :=
        List.chain'_iff_pairwise.mp htimes
      exact List.Pairwise.map _ (fun a b hab => not_lt.mpr (le_of_lt hab)) hp1
    have hsorted : sortByCachedAt ((i0 :: (mid ++ [lastIt])).map (mkCacheEntry ttl))
        = (i0 :: (mid ++ [lastIt])).map (mkCacheEntry ttl) := by
      have := sortAux_of_pairwise ((i0 :: (mid ++ [lastIt])).map (mkCacheEntry ttl)) []
        (by simp) hpw
      simpa [sortByCachedAt] using this
    rw [hsplit]
    unfold cacheProfile
    rw [hsetFresh]
    unfold enforceCacheLimit
    rw [if_neg (by rw [hLlen]; norm_num)]
    rw [hsorted, hLlen]
    rw [show (101 - 100 : Nat) = 1 from rfl]
    simp only [List.map_cons, List.take_succ_cons, List.take_zero, List.map_nil,
      List.foldl_cons, List.foldl_nil]
    rw [show List.drop 1 (i0 :: (mid ++ [lastIt])) = mid ++ [lastIt] from rfl]
    simp [removeEntry]
  exact ⟨fun now c q => rfl, hmain, by rw [hmain]; simp [hlen]⟩

/-- A batch of 101 items with pairwise-distinct keys (distinct platforms)
and strictly increasing timestamps 0, 1, ..., 100. -/
def itemsC9 : List (Int × ChessProfile) :=
  (List.range 101).map
    (fun i => (Int.ofNat i, { profileC2 with platform := "p" ++ toString i }))

/-- Witness for the C9 theorem: the concrete 101-item batch. -/
theorem cacheProfile_capacity_w :
    putAll 24 itemsC9 [] = (itemsC9.drop 1).map (mkCacheEntry 24) ∧
    (putAll 24 itemsC9 []).length = 100 := by
  have hchain : itemsC9.Chain' (fun a b => a.1 < b.1) :=
    List.Pairwise.chain' (List.Pairwise.map _ (fun a b hab => Int.ofNat_lt.mpr hab)
      (List.pairwise_lt_range 101))
  have h := cacheProfile_capacity itemsC9 24 (by decide) (by decide) hchain
  exact ⟨h.2.1, h.2.2⟩

end SusMeter
